import Mathlib

/-!
Verification development for the DataVista insight-generation and reporting
pipeline.  The definitions below are a shallow embedding of the relevant parts
of `src/utils/ai_insight.py` and `src/utils/report_generator.py`:

* `clean_text_for_pdf` — the text sanitization pass (identical copies at
  `report_generator.py` lines 6-20 and `ai_insight.py` lines 11-25).
  Note on the substitution table: in the Python source the dict literal
  accidentally contains two identical entries mapping the ASCII apostrophe to
  itself (duplicate keys collapse to one), and the two intended curly-quote
  entries actually tokenize as a single triple-quoted string, producing the
  seven-character key `: '"', ` mapped to a double quote.  The list below
  reproduces the dict's runtime content in insertion order.
* `missing_ratio_pct` — the missing-value statistic of
  `generate_data_summary` (`ai_insight.py` line 112); Python's
  `round(x, 2)` (round half to even) is modelled exactly on rationals by
  `roundHalfEven` / `pyRound2`.
* `selectTopCorrelation` / `corr_text` — the correlation filter and narrative
  text of `generate_data_summary` (`ai_insight.py` lines 118-127), abstracted
  over the unstacked list of (column, column, coefficient) entries.
* `summarize` — the local-model summarization step with its retry loop
  (`ai_insight.py` lines 148-172); the model handle is an optional oracle
  mapping attempt index to an optional output, and the result is paired with
  the number of invocation attempts made.
* `extract_section` / `parseSections` — the regex-based section extraction of
  `display_ai_summary` (`ai_insight.py` lines 236-248).
* `columnListText` — the first-5-names truncation of column lists in the
  narrative (`ai_insight.py` lines 136 and 140).
* `ospath_join` / `generate_combined_report_path` — the output path
  computation of `generate_combined_report` (`report_generator.py`
  lines 98-103).
-/

namespace DataVista

attribute [local semireducible] Rat.add Rat.sub Rat.mul Rat.inv Rat.ofScientific

/-- One sequential left-to-right non-overlapping replacement pass, the
semantics of Python's `str.replace(pat, rep)` for a non-empty `pat`.  The
extra natural-number argument counts characters of a just-matched pattern
occurrence still to be skipped.  (Python's `str.replace` with an empty
pattern inserts `rep` at every boundary; the source table has no empty keys,
so that case is irrelevant here.) -/
def replaceStep (pat rep : List Char) : List Char → Nat → List Char
  | [], _ => []
  | c :: rest, 0 =>
    if pat.isPrefixOf (c :: rest) then
      rep ++ replaceStep pat rep rest (pat.length - 1)
    else
      c :: replaceStep pat rep rest 0
  | _ :: rest, n + 1 => replaceStep pat rep rest n

/-- The runtime content of the `replacements` dict of `clean_text_for_pdf`,
in insertion order (see the module docstring for the two accidental
ASCII entries). -/
def replacements : List (String × String) :=
  [("—", "-"), ("–", "-"), ("\x27", "\x27"), (": \x27\"\x27, ", "\""),
   ("•", "-"), ("…", "..."), ("⚡", "*"), ("✨", "*"), ("🔥", "*"),
   ("📊", "[Chart]"), ("📈", "[Graph]"), ("📉", "[Graph]"),
   ("✅", "[OK]"), ("❌", "[X]"), ("⚠️", "[Warning]"),
   ("\n", "\n  ")]

/-- The character-level body of `clean_text_for_pdf`: apply each table
replacement in order with `str.replace` semantics. -/
def clean_chars (l : List Char) : List Char :=
  replacements.foldl (fun t kv => replaceStep kv.1.toList kv.2.toList t 0) l

/-- `clean_text_for_pdf` (`report_generator.py` lines 6-20): apply each
table replacement in order with `str.replace` semantics. -/
def clean_text_for_pdf (text : String) : String :=
  String.mk (clean_chars text.toList)

/-- Index of the first occurrence of `pat` in a character list, the
semantics of Python's `str.find` / leftmost `re.search` for a literal
pattern. -/
def findSub : List Char → List Char → Option Nat
  | [], pat => if pat.isPrefixOf ([] : List Char) then some 0 else none
  | c :: rest, pat =>
    if pat.isPrefixOf (c :: rest) then some 0
    else (findSub rest pat).map (fun i => i + 1)

/-- The effect of the table's final rule `"\n" -> "\n  "` in isolation:
every newline gets two spaces appended right after it. -/
def substNewlines : List Char → List Char
  | [] => []
  | c :: rest =>
    if c = '\n' then '\n' :: ' ' :: ' ' :: substNewlines rest
    else c :: substNewlines rest

/-- Round a rational to the nearest integer, mapping exact halves to the
even neighbor: the semantics of Python's built-in `round` on exact values. -/
def roundHalfEven (q : ℚ) : ℤ :=
  if q - Rat.floor q < 1/2 then Rat.floor q
  else if 1/2 < q - Rat.floor q then Rat.floor q + 1
  else if Rat.floor q % 2 = 0 then Rat.floor q else Rat.floor q + 1

/-- Python's `round(q, 2)` on exact values: round to the nearest multiple of
1/100, halves to even. -/
def pyRound2 (q : ℚ) : ℚ := (roundHalfEven (q * 100) : ℚ) / 100

/-- The `missing_ratio` local of `generate_data_summary` (`ai_insight.py`
line 112): `round((missing_values / (rows * cols)) * 100, 2) if
rows * cols > 0 else 0`.  Note the computed value is a rounded percentage. -/
def missing_ratio_pct (rows cols missing_values : ℕ) : ℚ :=
  if 0 < rows * cols then
    pyRound2 (((missing_values : ℚ) / ((rows * cols : ℕ) : ℚ)) * 100)
  else 0

/-- One entry of the unstacked correlation matrix `corr.unstack()`
(`ai_insight.py` line 122): first column name, second column name,
coefficient. -/
abbrev CorrEntry := String × String × ℚ

/-- Insert an entry into a list already sorted by descending coefficient. -/
def insertDesc (e : CorrEntry) : List CorrEntry → List CorrEntry
  | [] => [e]
  | x :: xs => if x.2.2 ≤ e.2.2 then e :: x :: xs else x :: insertDesc e xs

/-- `sort_values(ascending=False)` (`ai_insight.py` line 122): sort the
unstacked entries by coefficient, descending. -/
def sort_values_desc (l : List CorrEntry) : List CorrEntry := l.foldr insertDesc []

/-- The filter of `ai_insight.py` line 123:
`(corr_values < 0.999) & (corr_values > 0.4)` — a signed comparison on the
coefficient, not a comparison of its magnitude. -/
def corrKeep (v : ℚ) : Bool := decide (v < 0.999) && decide (v > 0.4)

/-- Lines 122-125 of `ai_insight.py`: sort the unstacked coefficients
descending, filter, and take the first surviving entry if any. -/
def selectTopCorrelation (entries : List CorrEntry) : Option CorrEntry :=
  ((sort_values_desc entries).filter (fun e => corrKeep e.2.2)).head?

/-- The `corr_text` local of `generate_data_summary` (`ai_insight.py` lines
119-127).  The coefficient is rounded with `round(., 2)`; its textual
rendering uses `toString` of the exact rational, standing in for Python's
float formatting. -/
def corr_text (entries : List CorrEntry) : String :=
  match selectTopCorrelation entries with
  | none => "No strong correlations detected."
  | some e =>
    "The strongest relationship (r = " ++ toString (pyRound2 e.2.2) ++
      ") is between `" ++ e.1 ++ "` and `" ++ e.2.1 ++ "`."

/-- The source of a summarization result: the local model's output, or the
fallback narrative (`ai_insight.py` lines 160, 168, 171). -/
inductive BackendSource
  | model
  | fallback
  deriving DecidableEq

/-- The outcome of the summarization step: the produced text and where it
came from. -/
structure BackendResult where
  text : String
  source : BackendSource
  deriving DecidableEq

/-- The retry loop of `generate_data_summary` (`ai_insight.py` lines
150-165): invoke the model oracle once per attempt, at most `budget` times,
counting invocations; when every attempt fails, fall back to the narrative.
`f i = none` models attempt `i` raising an exception. -/
def runRetries (f : ℕ → Option String) (narrative : String) :
    ℕ → ℕ → BackendResult × ℕ
  | attempt, 0 => (⟨narrative, BackendSource.fallback⟩, attempt)
  | attempt, budget + 1 =>
    match f attempt with
    | some s => (⟨s, BackendSource.model⟩, attempt + 1)
    | none => runRetries f narrative (attempt + 1) budget

/-- `max_retries = 3` (`ai_insight.py` line 151). -/
def max_retries : ℕ := 3

/-- Lines 148-172 of `ai_insight.py`: the summarization step.  `none`
models a summarizer handle that failed to initialize (`summarizer is None`);
`some f` models the loaded model, `f i` being the outcome of invocation
attempt `i`.  The second component of the result is the number of model
invocations performed. -/
def summarize (summarizer : Option (ℕ → Option String)) (narrative : String) :
    BackendResult × ℕ :=
  match summarizer with
  | some f => runRetries f narrative 0 max_retries
  | none => (⟨narrative, BackendSource.fallback⟩, 0)

/-- `extract_section` of `display_ai_summary` (`ai_insight.py` lines
241-243) for the marker patterns of lines 236-239, each of the shape
`marker(.+?)(?=stop|$)` with `re.DOTALL` (for the last pattern there is no
stop marker): find the leftmost occurrence of `marker`; the lazy group
`(.+?)` captures at least one character, up to the first position (at index
at least 1 past the marker) where the stop marker begins, or to the end of
the text when the stop marker does not occur there (the `$` alternative; `$`
can also match just before a trailing newline, a difference erased by the
final `.strip()`, modelled by `String.trim`).  A missing marker yields an
empty string. -/
def extract_section (marker : String) (stop : Option String) (text : String) :
    String :=
  match findSub text.toList marker.toList with
  | none => ""
  | some i =>
    let rest := text.toList.drop (i + marker.toList.length)
    if rest.isEmpty then ""
    else
      let body :=
        match stop with
        | some st =>
          match findSub (rest.drop 1) st.toList with
          | some j => rest.take (j + 1)
          | none => rest
        | none => rest
      (String.mk body).trim

/-- The four section extractions of `display_ai_summary` (`ai_insight.py`
lines 236-248), paired with the display titles of lines 251-273. -/
def parseSections (text : String) : List (String × String) :=
  [("Dataset Overview",
      extract_section "Dataset Overview:" (some "Numeric Insights:") text),
   ("Numeric Insights",
      extract_section "Numeric Insights:" (some "Categorical Insights:") text),
   ("Categorical Insights",
      extract_section "Categorical Insights:" (some "Data Health:") text),
   ("Data Health", extract_section "Data Health:" none text)]

/-- The column-list fragments of the narrative (`ai_insight.py` lines 136
and 140): `', '.join(cols[:5]) + (' and more' if len(cols) > 5 else '')`. -/
def columnListText (cols : List String) : String :=
  String.intercalate ", " (cols.take 5) ++
    (if cols.length > 5 then " and more" else "")

/-- POSIX semantics of `os.path.join` for one component. -/
def ospath_join (a b : String) : String :=
  if b.startsWith "/" then b
  else if a = "" ∨ a.endsWith "/" then a ++ b
  else a ++ "/" ++ b

/-- The output path computed and returned by `generate_combined_report`
(`report_generator.py` lines 98-103):
`os.path.join(tempfile.gettempdir(), 'DataVista_Full_Report.pdf')`.  The
summary text and the dataset affect only the written document body, never
the path expression. -/
def generate_combined_report_path (temp_dir summary : String)
    (df : Option (ℕ × ℕ)) : String :=
  ospath_join temp_dir "DataVista_Full_Report.pdf"

end DataVista


namespace DataVista

lemma replaceStep_of_findSub_none (pat rep : List Char) :
    ∀ s : List Char, findSub s pat = none → replaceStep pat rep s 0 = s := by
  intro s
  induction s with
  | nil => intro _; rfl
  | cons c rest ih =>
    intro h
    by_cases hp : pat.isPrefixOf (c :: rest)
    · simp [findSub, hp] at h
    · simp [findSub, hp] at h
      simp [replaceStep, hp, ih h]

lemma foldl_replaceStep_of_absent (tbl : List (String × String)) (s : List Char)
    (h : ∀ kv ∈ tbl, findSub s kv.1.toList = none) :
    tbl.foldl (fun t kv => replaceStep kv.1.toList kv.2.toList t 0) s = s := by
  induction tbl with
  | nil => rfl
  | cons kv rest ih =>
    have h1 : replaceStep kv.1.toList kv.2.toList s 0 = s :=
      replaceStep_of_findSub_none _ _ _ (h kv (List.mem_cons_self _ _))
    simp only [List.foldl_cons, h1]
    exact ih fun x hx => h x (List.mem_cons_of_mem _ hx)

lemma replaceStep_newline (s : List Char) :
    replaceStep ['\n'] ['\n', ' ', ' '] s 0 = substNewlines s := by
  induction s with
  | nil => rfl
  | cons c rest ih =>
    by_cases hc : c = '\n'
    · subst hc
      have hp : List.isPrefixOf ['\n'] ('\n' :: rest) = true := by
        simp [List.isPrefixOf]
      simp [replaceStep, hp, substNewlines, ih]
    · have hp : List.isPrefixOf ['\n'] (c :: rest) = false := by
        simp [List.isPrefixOf, hc]
        exact fun hh => hc hh.symm
      simp [replaceStep, hp, substNewlines, hc, ih]

lemma substNewlines_length_lt {s : List Char} (h : '\n' ∈ s) :
    s.length < (substNewlines s).length := by
  induction s with
  | nil => cases h
  | cons c rest ih =>
    by_cases hc : c = '\n'
    · subst hc
      have hle : rest.length ≤ (substNewlines rest).length := by
        clear h ih
        induction rest with
        | nil => simp [substNewlines]
        | cons d t iht =>
          by_cases hd : d = '\n' <;> simp [substNewlines, hd] <;> omega
      simp [substNewlines]
      omega
    · have hm : '\n' ∈ rest := by
        rcases List.mem_cons.mp h with h1 | h1
        · exact absurd h1.symm hc
        · exact h1
      simp [substNewlines, hc]
      exact ih hm

lemma toList_mk (l : List Char) : (String.mk l).toList = l := rfl

lemma clean_chars_eq_substNewlines (l : List Char)
    (habs : ∀ kv ∈ replacements.dropLast, findSub l kv.1.toList = none) :
    clean_chars l = substNewlines l := by
  have hsplit : replacements = replacements.dropLast ++ [("\n", "\n  ")] := rfl
  unfold clean_chars
  rw [hsplit, List.foldl_append, foldl_replaceStep_of_absent _ _ habs]
  show replaceStep "\n".toList "\n  ".toList l 0 = _
  have e1 : "\n".toList = ['\n'] := rfl
  have e2 : "\n  ".toList = ['\n', ' ', ' '] := rfl
  rw [e1, e2, replaceStep_newline]

/-- C9: for any input in which none of the fifteen non-newline table keys
occurs but a newline does occur, `clean_text_for_pdf` rewrites each newline
to a newline followed by two spaces and is therefore not the identity. -/
theorem clean_text_appends_spaces_after_newlines (s : String)
    (habs : ∀ kv ∈ replacements.dropLast, findSub s.toList kv.1.toList = none)
    (hnl : '\n' ∈ s.toList) :
    (clean_text_for_pdf s).toList = substNewlines s.toList ∧
      clean_text_for_pdf s ≠ s := by
  have h1 : (clean_text_for_pdf s).toList = clean_chars s.toList :=
    toList_mk (clean_chars s.toList)
  have h2 := clean_chars_eq_substNewlines s.toList habs
  refine ⟨h1.trans h2, fun he => ?_⟩
  have h3 := congrArg String.toList he
  rw [h1, h2] at h3
  have h4 := substNewlines_length_lt hnl
  rw [h3] at h4
  omega

set_option maxHeartbeats 2000000 in
/-- C9 witness: the concrete input "a\nb" contains a newline, none of the
non-newline table keys occurs in it, and sanitization maps it to "a\n  b",
which differs from the input. -/
theorem clean_text_appends_spaces_after_newlines_witness :
    ('\n' ∈ ("a\nb" : String).toList) ∧
      (clean_text_for_pdf "a\nb").toList = substNewlines ("a\nb" : String).toList ∧
      clean_text_for_pdf "a\nb" ≠ "a\nb" :=
  ⟨by decide,
   (clean_text_appends_spaces_after_newlines "a\nb" (by decide) (by decide)).1,
   (clean_text_appends_spaces_after_newlines "a\nb" (by decide) (by decide)).2⟩

/-- C5: the sanitization pass is not a total guard for the PDF encoder — a
character outside the substitution table (here the emoji U+1F389) passes
through `clean_text_for_pdf` unchanged, so a character far outside latin-1
reaches the renderer, contradicting the transliterate-or-drop contract. -/
theorem clean_text_unmapped_char_passes_through :
    clean_text_for_pdf "🎉" = "🎉" ∧
      ∃ c ∈ (clean_text_for_pdf "🎉").toList, 255 < c.toNat := by
  decide

end DataVista

namespace DataVista

attribute [local semireducible] Rat.add Rat.sub Rat.mul Rat.inv Rat.ofScientific

lemma ratFloor_le (q : ℚ) : (Rat.floor q : ℚ) ≤ q := (Rat.le_floor).mp le_rfl

lemma lt_ratFloor_add_one (q : ℚ) : q < Rat.floor q + 1 := by
  by_contra hcon
  push_neg at hcon
  have h2 : (Rat.floor q + 1 : ℤ) ≤ Rat.floor q := by
    refine (Rat.le_floor).mpr ?_
    push_cast
    linarith
  omega

lemma roundHalfEven_sub_abs (q : ℚ) : |(roundHalfEven q : ℚ) - q| ≤ 1/2 := by
  have h0 := ratFloor_le q
  have h1 := lt_ratFloor_add_one q
  rw [roundHalfEven]
  split_ifs with ha hb hc <;> rw [abs_le] <;> constructor <;> push_cast <;>
    linarith

lemma roundHalfEven_nonneg {q : ℚ} (h : 0 ≤ q) : 0 ≤ roundHalfEven q := by
  have habs := roundHalfEven_sub_abs q
  rw [abs_le] at habs
  have h2 : (-1 : ℚ) < (roundHalfEven q : ℚ) := by linarith
  have h3 : (-1 : ℤ) < roundHalfEven q := by exact_mod_cast h2
  omega

lemma roundHalfEven_le {q : ℚ} {n : ℤ} (h : q ≤ (n : ℚ)) :
    roundHalfEven q ≤ n := by
  have habs := roundHalfEven_sub_abs q
  rw [abs_le] at habs
  have h2 : (roundHalfEven q : ℚ) < ((n + 1 : ℤ) : ℚ) := by push_cast; linarith
  have h3 : roundHalfEven q < n + 1 := by exact_mod_cast h2
  omega

/-- C1 (amended): for a dataset with at least one cell, the computed
missing-value statistic is the percentage `missing / (rows*cols) * 100`
rounded to two decimal places — it lies in `[0, 100]` and is within `1/200`
of the exact percentage (not the unrounded ratio in `[0, 1]` the claim
states). -/
theorem missing_ratio_pct_percentage_bounds (rows cols missing_values : ℕ)
    (hpos : 0 < rows * cols) (hle : missing_values ≤ rows * cols) :
    0 ≤ missing_ratio_pct rows cols missing_values ∧
      missing_ratio_pct rows cols missing_values ≤ 100 ∧
      |missing_ratio_pct rows cols missing_values -
          ((missing_values : ℚ) / ((rows * cols : ℕ) : ℚ)) * 100| ≤ 1/200 := by
  have hrc : (0 : ℚ) < ((rows * cols : ℕ) : ℚ) := by exact_mod_cast hpos
  set q : ℚ := ((missing_values : ℚ) / ((rows * cols : ℕ) : ℚ)) * 100 with hq
  have hq0 : 0 ≤ q := by
    rw [hq]
    have : (0 : ℚ) ≤ (missing_values : ℚ) / ((rows * cols : ℕ) : ℚ) :=
      div_nonneg (Nat.cast_nonneg _) hrc.le
    linarith
  have hq100 : q ≤ 100 := by
    rw [hq]
    have hd1 : (missing_values : ℚ) / ((rows * cols : ℕ) : ℚ) ≤ 1 := by
      rw [div_le_one hrc]
      exact_mod_cast hle
    linarith
  have hmr : missing_ratio_pct rows cols missing_values = pyRound2 q := by
    rw [missing_ratio_pct, if_pos hpos]
  have habs := roundHalfEven_sub_abs (q * 100)
  rw [abs_le] at habs
  have hr0 : 0 ≤ roundHalfEven (q * 100) := roundHalfEven_nonneg (by linarith)
  have hr1 : roundHalfEven (q * 100) ≤ (10000 : ℤ) :=
    roundHalfEven_le (by push_cast; linarith)
  have hc0 : (0 : ℚ) ≤ (roundHalfEven (q * 100) : ℚ) := by exact_mod_cast hr0
  have hc1 : (roundHalfEven (q * 100) : ℚ) ≤ 10000 := by exact_mod_cast hr1
  rw [hmr, pyRound2]
  refine ⟨by linarith, by linarith, ?_⟩
  rw [abs_le]
  constructor <;> linarith

/-- C1 witness: a 10 by 10 dataset with 5 missing cells satisfies the
hypotheses, and the theorem yields the percentage bounds for it. -/
theorem missing_ratio_pct_percentage_bounds_witness :
    0 < 10 * 10 ∧ (5 : ℕ) ≤ 10 * 10 ∧
      (0 ≤ missing_ratio_pct 10 10 5 ∧
        missing_ratio_pct 10 10 5 ≤ 100 ∧
        |missing_ratio_pct 10 10 5 - ((5 : ℚ) / ((10 * 10 : ℕ) : ℚ)) * 100| ≤ 1/200) :=
  ⟨by decide, by decide, missing_ratio_pct_percentage_bounds 10 10 5 (by decide) (by decide)⟩

/-- C1 counterexample: a 1 by 2 dataset with one missing cell yields the
value 50 — a rounded percentage — which exceeds 1 and differs from the exact
ratio 1/2, refuting the claim that the computed value lies in `[0, 1]` and
equals `missing / (rows * cols)`. -/
theorem missing_ratio_pct_claim_false :
    missing_ratio_pct 1 2 1 = 50 ∧ ¬ missing_ratio_pct 1 2 1 ≤ 1 ∧
      missing_ratio_pct 1 2 1 ≠ (1 : ℚ) / ((1 * 2 : ℕ) : ℚ) := by
  decide

/-- C7: for a dataset with 0 rows or 0 columns the computed missing-value
statistic is 0; the `rows * cols > 0` guard means the division is never
evaluated. -/
theorem missing_ratio_pct_zero_dims (rows cols missing_values : ℕ)
    (h : rows = 0 ∨ cols = 0) :
    missing_ratio_pct rows cols missing_values = 0 := by
  have hz : ¬ 0 < rows * cols := by
    rcases h with h | h <;> simp [h]
  rw [missing_ratio_pct, if_neg hz]

/-- C7 witness: a dataset with 0 rows and 5 columns. -/
theorem missing_ratio_pct_zero_dims_witness :
    ((0 : ℕ) = 0 ∨ (5 : ℕ) = 0) ∧ missing_ratio_pct 0 5 7 = 0 :=
  ⟨Or.inl rfl, missing_ratio_pct_zero_dims 0 5 7 (Or.inl rfl)⟩

end DataVista

namespace DataVista

attribute [local semireducible] Rat.add Rat.sub Rat.mul Rat.inv Rat.ofScientific

/-- C2 (amended): a correlation pair is reported only if its signed
coefficient lies strictly between 0.4 and 0.999 (so a pair with coefficient
-0.9 is filtered out, not reported); when no pair survives the filter, the
narrative line is exactly "No strong correlations detected." -/
theorem corr_selection_signed_filter (entries : List CorrEntry) :
    (∀ e, selectTopCorrelation entries = some e →
        (0.4 : ℚ) < e.2.2 ∧ e.2.2 < 0.999) ∧
      (selectTopCorrelation entries = none →
        corr_text entries = "No strong correlations detected.") := by
  constructor
  · intro e he
    have hmem : e ∈ (sort_values_desc entries).filter (fun x => corrKeep x.2.2) := by
      cases hl : (sort_values_desc entries).filter (fun x => corrKeep x.2.2) with
      | nil =>
        rw [selectTopCorrelation, hl] at he
        cases he
      | cons a t =>
        rw [selectTopCorrelation, hl] at he
        cases he
        exact List.mem_cons_self _ _
    have hk := List.of_mem_filter hmem
    simp only [corrKeep, Bool.and_eq_true, decide_eq_true_eq] at hk
    exact ⟨hk.2, hk.1⟩
  · intro h
    simp [corr_text, h]

/-- C2 witness: a single pair with coefficient 0.95 is selected, and the
theorem certifies its coefficient lies strictly between 0.4 and 0.999. -/
theorem corr_selection_signed_filter_witness :
    selectTopCorrelation [("a", "b", (0.95 : ℚ))] = some ("a", "b", (0.95 : ℚ)) ∧
      ((0.4 : ℚ) < (0.95 : ℚ) ∧ (0.95 : ℚ) < (0.999 : ℚ)) :=
  ⟨by decide,
   (corr_selection_signed_filter [("a", "b", (0.95 : ℚ))]).1
     ("a", "b", (0.95 : ℚ)) (by decide)⟩

/-- C2 counterexample: the filter compares the signed coefficient, so a pair
with coefficient -0.9 does not survive (the claim states it does): no pair
is selected and the narrative reports no strong correlations. -/
theorem corr_negative_pair_not_reported :
    selectTopCorrelation [("x", "y", (-0.9 : ℚ))] = none ∧
      corr_text [("x", "y", (-0.9 : ℚ))] = "No strong correlations detected." := by
  constructor
  · decide
  · rfl

/-- C3: when the model handle is present and every one of the 3 attempts
fails, the summarization step returns the input narrative unmodified marked
as a fallback (after exactly 3 invocations).  In the embedding `summarize`
is a total function: no failure escapes to the caller. -/
theorem summarize_all_attempts_fail (f : ℕ → Option String) (narrative : String)
    (h : ∀ i, i < max_retries → f i = none) :
    summarize (some f) narrative =
      (⟨narrative, BackendSource.fallback⟩, 3) := by
  have h0 := h 0 (by norm_num [max_retries])
  have h1 := h 1 (by norm_num [max_retries])
  have h2 := h 2 (by norm_num [max_retries])
  show runRetries f narrative 0 max_retries = _
  rw [show max_retries = 2 + 1 from rfl, runRetries, h0]
  rw [show (2 : ℕ) = 1 + 1 from rfl, runRetries, h1]
  rw [show (1 : ℕ) = 0 + 1 from rfl, runRetries, h2]
  rfl

/-- C3 witness: with an oracle whose every attempt fails, the result is the
fallback carrying the narrative unmodified. -/
theorem summarize_all_attempts_fail_witness :
    summarize (some (fun _ => none)) "narrative" =
      (⟨"narrative", BackendSource.fallback⟩, 3) :=
  summarize_all_attempts_fail (fun _ => none) "narrative" (fun _ _ => rfl)

/-- C6: with an absent model handle (`summarizer is None`), the
summarization step short-circuits to the fallback carrying the narrative
unmodified and performs zero model invocations. -/
theorem summarize_no_model_short_circuits (narrative : String) :
    summarize none narrative = (⟨narrative, BackendSource.fallback⟩, 0) := rfl

end DataVista

namespace DataVista

lemma extract_section_of_marker_absent (marker : String) (stop : Option String)
    (text : String) (h : findSub text.toList marker.toList = none) :
    extract_section marker stop text = "" := by
  simp only [extract_section, h]

/-- C4 (amended): on input in which none of the four fixed section markers
occurs, the section extraction does not fail — it returns the four fixed
sections, each with an empty body; the raw text is dropped, not preserved
under a generic title. -/
theorem parse_without_markers_empty_sections (text : String)
    (h1 : findSub text.toList ("Dataset Overview:").toList = none)
    (h2 : findSub text.toList ("Numeric Insights:").toList = none)
    (h3 : findSub text.toList ("Categorical Insights:").toList = none)
    (h4 : findSub text.toList ("Data Health:").toList = none) :
    (parseSections text).map Prod.snd = ["", "", "", ""] := by
  simp only [parseSections, List.map_cons, List.map_nil]
  rw [extract_section_of_marker_absent _ _ _ h1,
    extract_section_of_marker_absent _ _ _ h2,
    extract_section_of_marker_absent _ _ _ h3,
    extract_section_of_marker_absent _ _ _ h4]

/-- C4 witness: the marker-free input "hello world" yields four empty
section bodies. -/
theorem parse_without_markers_empty_sections_witness :
    (parseSections "hello world").map Prod.snd = ["", "", "", ""] :=
  parse_without_markers_empty_sections "hello world"
    (by decide) (by decide) (by decide) (by decide)

/-- C4 counterexample: for the marker-free input "hello world" the parser
produces four sections — not a single one — and none of their bodies carries
the raw text, refuting the single-raw-text-section claim. -/
theorem parse_without_markers_not_single_raw_section :
    (parseSections "hello world").length = 4 ∧
      ∀ p ∈ parseSections "hello world", p.2 ≠ "hello world" := by
  decide

/-- C8: the narrative's column lists keep only the first 5 names — all names
when there are at most 5, with no suffix — and append " and more" exactly
when the column group has more than 5 entries. -/
theorem columnListText_truncates_at_five (cols : List String) :
    (cols.length ≤ 5 → columnListText cols = String.intercalate ", " cols) ∧
      (5 < cols.length →
        columnListText cols =
          String.intercalate ", " (cols.take 5) ++ " and more") := by
  constructor
  · intro h
    rw [columnListText, List.take_of_length_le h, if_neg (by omega)]
    simp
  · intro h
    rw [columnListText, if_pos (by omega)]

/-- C8 witness: six column names are truncated to the first five with the
" and more" suffix. -/
theorem columnListText_truncates_at_five_witness :
    5 < (["a", "b", "c", "d", "e", "f"] : List String).length ∧
      columnListText ["a", "b", "c", "d", "e", "f"] =
        String.intercalate ", "
            ((["a", "b", "c", "d", "e", "f"] : List String).take 5) ++
          " and more" :=
  ⟨by decide, (columnListText_truncates_at_five _).2 (by decide)⟩

/-- C10: the report path is the system temporary directory joined with the
fixed name 'DataVista_Full_Report.pdf', independent of the summary text and
of the dataset, and it is exactly the value the function returns — so a
later call targets (and overwrites) the same location. -/
theorem report_path_input_independent (temp_dir s₁ s₂ : String)
    (df₁ df₂ : Option (ℕ × ℕ)) :
    generate_combined_report_path temp_dir s₁ df₁ =
        ospath_join temp_dir "DataVista_Full_Report.pdf" ∧
      generate_combined_report_path temp_dir s₁ df₁ =
        generate_combined_report_path temp_dir s₂ df₂ :=
  ⟨rfl, rfl⟩

end DataVista
